import Mathlib

/-!
Verification of the `unpack_clock_res` watchface packer (`gen_clock.py`).

Shallow embedding conventions:
* Python byte strings are `List Nat` (each entry one byte, `< 256` where produced by code).
* Python filename strings are their UTF-8 byte lists.
* The external LZ4 block compressor (`lz4.block.compress` with
  `mode='high_compression', compression=12, store_size=False`) is an opaque
  parameter `lz4 : List Nat → List Nat` of the functions that call it.
* Fallible paths (Python exceptions: `KeyError`, `struct.error`, `TypeError`,
  explicit error-and-return) are `Option`, with `none` meaning the operation
  aborts / produces no output.
-/

namespace GenClock

abbrev Bytes := List Nat

/-- Big-endian 32-bit encoding, as produced by `struct.pack` with format
`>I` (and, on the two's-complement image, `>i`). -/
def be32 (n : Nat) : Bytes :=
  [n / 16777216 % 256, n / 65536 % 256, n / 256 % 256, n % 256]

/-- Model of `struct.pack` format `>I`: big-endian u32, erroring (hence
`none`) when the value does not fit in 32 bits. -/
def packU32 (n : Nat) : Option Bytes :=
  if n < 4294967296 then some (be32 n) else none

/-- Model of `struct.pack` format `>i`: big-endian i32 (two's complement),
erroring when the value is outside `[-2^31, 2^31)`. -/
def packBEi (v : Int) : Option Bytes :=
  if v < -2147483648 ∨ 2147483648 ≤ v then none
  else some (be32 ((v % 4294967296).toNat))

/-- Big-endian u32 read at byte offset `i` of a byte list (out-of-range
bytes read as 0). -/
def readBE32 (l : Bytes) (i : Nat) : Nat :=
  l.getD i 0 * 16777216 + l.getD (i + 1) 0 * 65536 + l.getD (i + 2) 0 * 256 + l.getD (i + 3) 0

/-- Little-endian u16 encoding, as produced by `struct.pack('<H', v)`
(all values fed to it by the transcoder are below `2^16`). -/
def le16 (v : Nat) : Bytes :=
  [v % 256, (v >>> 8) % 256]

/-! ## Chunk compressor (`compress_rgb`, gen_clock.py lines 344-385) -/

/-- Declared 24-bit payload length of a chunk:
`header[2] | (header[3] << 8) | (header[4] << 16)`. -/
def declaredLen24 (blob : Bytes) : Nat :=
  blob.getD 2 0 ||| (blob.getD 3 0 <<< 8) ||| (blob.getD 4 0 <<< 16)

/-- Write `n`'s low 24 bits into header bytes 2..4 (little-endian), as the
repair branch of `compress_rgb` does. -/
def setLen24 (h : Bytes) (n : Nat) : Bytes :=
  ((h.set 2 (n &&& 255)).set 3 ((n >>> 8) &&& 255)).set 4 ((n >>> 16) &&& 255)

/-- Per-chunk body of `compress_rgb`: given the chunk bytes of one `.RGB`
file, produce the bytes of the `.COMP` file it writes, or `none` when the
chunk is skipped (shorter than a header, or already compressed with
`header[1] == 1`; in both cases the stored `.RGB` chunk is left untouched
and no compressed sibling is emitted).  `lz4` stands for the opaque
external `lz4.block.compress(·, mode='high_compression', compression=12,
store_size=False)`. -/
def compressRGB (lz4 : Bytes → Bytes) (blob : Bytes) : Option Bytes :=
  if blob.length < 16 then none
  else if blob.getD 1 0 = 1 then none
  else
    let payload := blob.drop 16
    let pl := declaredLen24 blob
    let header :=
      if pl = 0 ∨ payload.length < pl then setLen24 (blob.take 16) payload.length
      else blob.take 16
    let plFixed := if pl = 0 ∨ payload.length < pl then payload.length else pl
    some ((header.set 1 1) ++ lz4 (payload.take plFixed))

/-! ## Device-RGB chunk header (`bmp_2_rgb`, gen_clock.py lines 305-319) -/

/-- Sixteen-byte chunk header assembled by `bmp_2_rgb` (and, with the same
byte layout, for JPG/GIF in `gen_clock_res`): image type, compressed flag 0,
24-bit little-endian payload length, packed 12-bit height and width. -/
def mkChunkHeader (imgType payloadLen h w : Nat) : Bytes :=
  [imgType, 0,
   payloadLen &&& 255, (payloadLen >>> 8) &&& 255, (payloadLen >>> 16) &&& 255,
   h &&& 255,
   ((h >>> 8) &&& 15) ||| ((w &&& 15) <<< 4),
   (w >>> 4) &&& 255,
   0, 0, 0, 0, 0, 0, 0, 0]

/-- Final assembly step of `bmp_2_rgb`: `out_blob = header + payload`, with
the header's length field computed from `len(out_payload)`.  The source
performs no size check on the payload before packing its length into the
24-bit field. -/
def bmp2rgbAssemble (imgType : Nat) (payload : Bytes) (w h : Nat) : Bytes :=
  mkChunkHeader imgType payload.length h w ++ payload

/-! ## Pixel transcoder (`bmp_2_rgb`, gen_clock.py lines 219-303) -/

/-- Suffix test on byte lists, modelling Python `str.endswith`. -/
def endsWithB (suffix s : Bytes) : Bool :=
  List.isPrefixOf suffix.reverse s.reverse

/-- Target-format selection of `bmp_2_rgb` (lines 214-238), mapping the
stem of the file name (the part before the first dot) and the BMP's
bits-per-pixel to the emitted `img_type`, or `none` when the file is
reported and aborted (unsupported bpp, or a suffix/bpp mismatch). -/
def selectImgType (stem : Bytes) (bppBits : Nat) : Option Nat :=
  let bpp := bppBits >>> 3
  if ¬(bpp = 2 ∨ bpp = 3 ∨ bpp = 4) then none
  else if endsWithB suffix8888 stem then
    if bpp ≠ 4 then none else some 71
  else if endsWithB suffix1555 stem ∧ bpp = 4 then some 74
  else if endsWithB suffix565 stem ∨ bpp = 2 ∨ bpp = 3 then some 73
  else if bpp ≠ 4 then none
  else some 72
where
  suffix8888 : Bytes := [56, 56, 56, 56]
  suffix1555 : Bytes := [49, 53, 53, 53]
  suffix565 : Bytes := [53, 54, 53]

/-- RGB565 packing of one pixel, exactly the arithmetic of line 265:
`((r & 248) << 8) | ((g & 252) << 3) | ((b & 248) >> 3)`. -/
def rgb565 (r g b : Nat) : Nat :=
  ((r &&& 248) <<< 8) ||| ((g &&& 252) <<< 3) ||| ((b &&& 248) >>> 3)

/-- Little-endian u16 emission of pixel `x` of a 24-bit (3 bytes/pixel)
BMP row: bytes are read in BGR order (`b` at `3x`, `g` at `3x+1`,
`r` at `3x+2`). -/
def pack565Pixel (row : Bytes) (x : Nat) : Bytes :=
  le16 (rgb565 (row.getD (x * 3 + 2) 0) (row.getD (x * 3 + 1) 0) (row.getD (x * 3) 0))

/-- Concatenation of `f s, f (s+1), ..., f (s+n-1)`, modelling the
`for x in range(...)` accumulation loops of `pack_row`. -/
def pixRun (f : Nat → Bytes) : Nat → Nat → Bytes
  | _, 0 => []
  | s, n + 1 => f s ++ pixRun f (s + 1) n

/-- The `rgb_format == 565` arm of `pack_row` (lines 256-267): for
`bpp == 2` the first `width*2` bytes of the row pass through unchanged;
for `bpp == 3` each of the `width` pixels is transcoded by `pack565Pixel`. -/
def packRow565 (bpp w : Nat) (row : Bytes) : Bytes :=
  if bpp = 2 then row.take (w * 2)
  else pixRun (pack565Pixel row) 0 w

/-! ## Image table, regions and thumbnail selection
(`gen_clock_res`, gen_clock.py lines 436-523) -/

/-- Python byte of `str.lower` restricted to ASCII (all names the program
compares are ASCII). -/
def toLowerByte (c : Nat) : Nat :=
  if 65 ≤ c ∧ c ≤ 90 then c + 32 else c

/-- Lowercasing of a filename, modelling `str.lower`. -/
def lowerBytes (s : Bytes) : Bytes :=
  s.map toLowerByte

/-- Substring test, modelling Python's `needle in hay` on strings. -/
def containsSub (needle : Bytes) : Bytes → Bool
  | [] => needle.isEmpty
  | a :: t => List.isPrefixOf needle (a :: t) || containsSub needle t

/-- Bytes of the literal `'thumbnail'` used in line 503's substring test. -/
def thumbKey : Bytes := [116, 104, 117, 109, 98, 110, 97, 105, 108]

/-- Bytes of the literal `'z_'` used in the `startswith` tests of lines
507, 554 and 568. -/
def zKey : Bytes := [122, 95]

/-- Test `name.startswith('z_')`. -/
def startsZ (name : Bytes) : Bool :=
  List.isPrefixOf zKey name

/-- Entry insertion into the `img_objs` dict: overwrite the value when the
key is present, append otherwise. -/
def insertObj (objs : List (Bytes × Nat × Nat)) (k : Bytes) (v : Nat × Nat) :
    List (Bytes × Nat × Nat) :=
  match objs with
  | [] => [(k, v)]
  | (k0, v0) :: t => if k0 = k then (k0, v) :: t else (k0, v0) :: insertObj t k v

/-- Dict lookup `img_objs[name]`; `none` models the `KeyError` that aborts
the pack. -/
def lookupObj (objs : List (Bytes × Nat × Nat)) (k : Bytes) : Option (Nat × Nat) :=
  match objs with
  | [] => none
  | (k0, v0) :: t => if k0 = k then some v0 else lookupObj t k

/-- Accumulated state of the resource loop of `gen_clock_res`: the three
data regions with their running lengths, and the filename → (offset,
length) table `img_objs`. -/
structure PackAcc where
  thumbData : Bytes
  thumbLen : Nat
  imgData : Bytes
  imgLen : Nat
  zData : Bytes
  zLen : Nat
  objs : List (Bytes × Nat × Nat)
deriving Repr, DecidableEq

/-- One iteration of the `for file_path in file_list` loop (lines 462-517),
given the reconstructed `file_name` and the chunk bytes `in_data`: with no
thumbnail override, a name containing the exact substring `'thumbnail'`
replaces the thumbnail; otherwise a `z_`-prefixed name is appended to the
Z region and any other name to the main region, each recording its region
local offset and length in `img_objs`. -/
def packStep (hasOverride : Bool) (acc : PackAcc) (name data : Bytes) : PackAcc :=
  if hasOverride = false ∧ containsSub thumbKey name then
    { acc with thumbData := data, thumbLen := data.length }
  else if startsZ name then
    { acc with
      zData := acc.zData ++ data
      objs := insertObj acc.objs name (acc.zLen, data.length)
      zLen := acc.zLen + data.length }
  else
    { acc with
      imgData := acc.imgData ++ data
      objs := insertObj acc.objs name (acc.imgLen, data.length)
      imgLen := acc.imgLen + data.length }

/-- The whole resource loop over the prepared file list (pairs of
`file_name` and chunk bytes), starting from the override thumbnail when
one was supplied (lines 442-452). -/
def packFiles (thumbOv : Option Bytes) (files : List (Bytes × Bytes)) : PackAcc :=
  files.foldl (fun acc nd => packStep thumbOv.isSome acc nd.1 nd.2)
    { thumbData := thumbOv.getD []
      thumbLen := (thumbOv.getD []).length
      imgData := []
      imgLen := 0
      zData := []
      zLen := 0
      objs := [] }

/-! ## Layers and the layer serializer
(`gen_clock_res`, gen_clock.py lines 533-574) -/

/-- Element of a layer's `imgArr`: an integer, a filename string, or a
3-tuple whose last component is a filename (JSON lists in `config.json`). -/
inductive ImgElem where
  | int (v : Int)
  | str (s : Bytes)
  | tup (a b : Int) (s : Bytes)
deriving Repr, DecidableEq

/-- One entry of `config.json`.  `interval` is read only when
`dataType ∈ {130, 59, 52}` and `area_num` only when `dataType == 112`;
`name` is used only by the validator's count-mismatch message. -/
structure Layer where
  name : Bytes
  drawType : Int
  dataType : Int
  interval : Int
  area_num : List Int
  alignType : Int
  x : Int
  y : Int
  num : Int
  imgArr : List ImgElem
deriving Repr, DecidableEq

/-- Serialization of one `imgArr` element at index `idx` (the body of the
`for idx, img in enumerate(layer['imgArr'])` loop, lines 550-574), with the
branches in source order.  `zs` is `clock_z_img_start`; `none` models the
exceptions (`KeyError` on a missing `img_objs` entry, `struct.error` on an
out-of-range i32, `TypeError`/`AttributeError` on an element of the wrong
shape) that abort the pack. -/
def serializeElem (zs : Nat) (objs : List (Bytes × Nat × Nat)) (dt dty : Int)
    (idx : Nat) (e : ImgElem) : Option Bytes :=
  if dt = 10 ∨ dt = 15 ∨ dt = 21 then
    match e with
    | .tup a b s =>
      match lookupObj objs s with
      | none => none
      | some (o, l) => do
        let pa ← packBEi a
        let pb ← packBEi b
        let po ← if startsZ s then packBEi ((zs : Int) + o) else packBEi (o : Int)
        let pl ← packBEi (l : Int)
        some (pa ++ pb ++ po ++ pl)
    | _ => none
  else if dt = 55 ∧ idx = 2 then
    match e with
    | .str s => some (pack30 s)
    | _ => none
  else if (dty = 64 ∨ dty = 65 ∨ dty = 66 ∨ dty = 67) ∧ (idx = 10 ∨ idx = 11) then
    match e with
    | .int v => packBEi v
    | _ => none
  else if dt = 8 ∧ (idx = 0 ∨ idx = 1 ∨ idx = 2) then
    match e with
    | .int v => packBEi v
    | _ => none
  else
    match e with
    | .int v => packBEi v
    | .str s =>
      match lookupObj objs s with
      | none => none
      | some (o, l) => do
        let po ← if startsZ s then packBEi ((zs : Int) + o) else packBEi (o : Int)
        let pl ← packBEi (l : Int)
        some (po ++ pl)
    | .tup _ _ _ => none
where
  /-- `struct.pack('30s', s)`: exactly 30 bytes, null-padded or truncated. -/
  pack30 (s : Bytes) : Bytes := s.take 30 ++ List.replicate (30 - s.length) 0

/-- Serialization of the elements of `imgArr` starting at index `i`. -/
def serializeElems (zs : Nat) (objs : List (Bytes × Nat × Nat)) (dt dty : Int) :
    Nat → List ImgElem → Option Bytes
  | _, [] => some []
  | i, e :: es => do
    let b ← serializeElem zs objs dt dty i e
    let r ← serializeElems zs objs dt dty (i + 1) es
    some (b ++ r)

/-- Serialization of one layer (lines 537-574): the big-endian i32 prefix
fields — `drawType`, `dataType`, `interval` iff `dataType ∈ {130, 59, 52}`,
the `area_num` values iff `dataType == 112`, then `alignType`, `x`, `y`,
`num` — followed by the serialized `imgArr` elements. -/
def serializeLayer (zs : Nat) (objs : List (Bytes × Nat × Nat)) (L : Layer) :
    Option Bytes := do
  let f1 ← packBEi L.drawType
  let f2 ← packBEi L.dataType
  let f3 ← if L.dataType = 130 ∨ L.dataType = 59 ∨ L.dataType = 52
           then packBEi L.interval else some []
  let f4 ← if L.dataType = 112 then packInts L.area_num else some ([] : Bytes)
  let f5 ← packBEi L.alignType
  let f6 ← packBEi L.x
  let f7 ← packBEi L.y
  let f8 ← packBEi L.num
  let es ← serializeElems zs objs L.drawType L.dataType 0 L.imgArr
  some (f1 ++ f2 ++ f3 ++ f4 ++ f5 ++ f6 ++ f7 ++ f8 ++ es)
where
  packInts : List Int → Option Bytes
    | [] => some []
    | v :: vs => do
      let b ← packBEi v
      let r ← packInts vs
      some (b ++ r)

/-- Serialization of the whole `config.json` layer list, in order. -/
def serializeLayers (zs : Nat) (objs : List (Bytes × Nat × Nat)) :
    List Layer → Option Bytes
  | [] => some []
  | L :: ls => do
    let b ← serializeLayer zs objs L
    let r ← serializeLayers zs objs ls
    some (b ++ r)

/-! ## Res-blob assembly (`gen_clock_res`, gen_clock.py lines 525-598) -/

/-- Fixed resolution-prefix table `g_clock_id_prefix_dict` (lines 27-37),
keyed by the `W_H` size string; `none` models the `KeyError` on an unknown
size. -/
def prefixOf (k : Bytes) : Option Nat :=
  if k = [52, 53, 52, 95, 52, 53, 52] then some 983040      -- 454_454
  else if k = [52, 48, 48, 95, 52, 48, 48] then some 917504 -- 400_400
  else if k = [52, 54, 54, 95, 52, 54, 54] then some 851968 -- 466_466
  else if k = [51, 57, 48, 95, 51, 57, 48] then some 786432 -- 390_390
  else if k = [52, 49, 48, 95, 53, 48, 50] then some 720896 -- 410_502
  else if k = [51, 50, 48, 95, 51, 56, 52] then some 655360 -- 320_384
  else if k = [51, 50, 48, 95, 51, 56, 53] then some 655360 -- 320_385
  else if k = [51, 54, 56, 95, 52, 52, 56] then some 589824 -- 368_448
  else if k = [51, 57, 48, 95, 52, 53, 48] then some 524288 -- 390_450
  else if k = [51, 54, 48, 95, 51, 54, 48] then some 458752 -- 360_360
  else none

/-- Bytes of the default magic string `'Sb@*O2GG'`. -/
def stdMagic : Bytes := [83, 98, 64, 42, 79, 50, 71, 71]

/-- Bytes of the idle magic string `'II@*24dG'`. -/
def idleMagic : Bytes := [73, 73, 64, 42, 50, 52, 100, 71]

/-- Resource generation after a successful `check_clock` (the validator is
modelled separately below): run the resource loop over the prepared file
list, serialize the layers against the resulting image table with
`clock_z_img_start = 32 + clock_thumb_length + clock_img_length`, and write
magic, clock id (`clock_id_base | prefix`), the three big-endian region
descriptors and the four data blocks in source order (lines 583-595). -/
def genClockRes (isIdle : Bool) (base : Nat) (sizeKey : Bytes)
    (thumbOv : Option Bytes) (files : List (Bytes × Bytes))
    (layers : List Layer) : Option Bytes :=
  match prefixOf sizeKey with
  | none => none
  | some pfx =>
    let acc := packFiles thumbOv files
    match serializeLayers (32 + acc.thumbLen + acc.imgLen) acc.objs layers with
    | none => none
    | some layerData =>
      match packU32 (base ||| pfx), packU32 32, packU32 acc.thumbLen,
            packU32 (32 + acc.thumbLen), packU32 acc.imgLen,
            packU32 (32 + acc.thumbLen + acc.imgLen + acc.zLen) with
      | some w1, some w2, some w3, some w4, some w5, some w6 =>
        some ((if isIdle then idleMagic else stdMagic) ++ w1 ++ w2 ++ w3 ++ w4
              ++ w5 ++ w6 ++ acc.thumbData ++ acc.imgData ++ acc.zData ++ layerData)
      | _, _, _, _, _, _ => none

/-! ## Layout validator (`check_clock`, gen_clock.py lines 77-139)

The validator walks every layer of the parsed config against the lowercased
directory file list `my_list`, logging one message per mismatch and
incrementing `err_count`; it returns the boolean `err_count == 0` (the
config-missing / unreadable early returns are outside the model). -/

/-- One mismatch reported by `check_clock`: an image-count mismatch for a
layer (tagged by the layer's `name`), or a missing referenced file (tagged
by the lowercased name that was looked up). -/
inductive CheckErr where
  | countMismatch (layerName : Bytes)
  | missing (name : Bytes)
deriving Repr, DecidableEq

/-- Mismatches contributed by one `imgArr` element at index `idx` (lines
113-131): the last component of a tuple must exist on disk; integers are
skipped; a string must exist on disk unless `drawType == 55 && idx == 2`.
Lookups lowercase the config-side name; `files` is already lowercased. -/
def checkElemErrs (files : List Bytes) (dt : Int) (idx : Nat) (e : ImgElem) :
    List CheckErr :=
  match e with
  | .tup _ _ s => if lowerBytes s ∈ files then [] else [.missing (lowerBytes s)]
  | .int _ => []
  | .str s =>
    if dt = 55 ∧ idx = 2 then []
    else if lowerBytes s ∈ files then [] else [.missing (lowerBytes s)]

/-- Mismatch list of the elements of `imgArr` starting at index `i`. -/
def checkElemsErrs (files : List Bytes) (dt : Int) : Nat → List ImgElem → List CheckErr
  | _, [] => []
  | i, e :: es => checkElemErrs files dt i e ++ checkElemsErrs files dt (i + 1) es

/-- Mismatch list of one layer: the count mismatch (when
`len(imgArr) != num`) followed by the per-element mismatches, in loop
order. -/
def checkLayerErrs (files : List Bytes) (L : Layer) : List CheckErr :=
  (if (L.imgArr.length : Int) ≠ L.num then [.countMismatch L.name] else [])
    ++ checkElemsErrs files L.drawType 0 L.imgArr

/-- Every mismatch `check_clock` logs, over all layers in config order. -/
def checkClockErrs (files : List Bytes) (layers : List Layer) : List CheckErr :=
  layers.flatMap (checkLayerErrs files)

/-- Imperative `err_count` of `check_clock`, accumulated exactly as the
source's nested loops do: one increment per count mismatch and one per
missing file, never resetting and never stopping early. -/
def checkCount (files : List Bytes) (layers : List Layer) : Nat :=
  layers.foldl
    (fun c L =>
      elemsCount files L.drawType
        (c + if (L.imgArr.length : Int) ≠ L.num then 1 else 0) 0 L.imgArr)
    0
where
  elemsCount (files : List Bytes) (dt : Int) : Nat → Nat → List ImgElem → Nat
    | c, _, [] => c
    | c, i, e :: es =>
      elemsCount files dt (c + (checkElemErrs files dt i e).length) (i + 1) es

/-- Boolean result of `check_clock`: `True` iff `err_count` stayed zero. -/
def checkClockBool (files : List Bytes) (layers : List Layer) : Bool :=
  checkCount files layers = 0

/-! ## Helper lemmas -/

/-- Or of byte-disjoint parts is addition: the low byte, a byte shifted to
bits 8..15, and anything shifted to bits 16 and above. -/
theorem lor_bytes_add (a b c : Nat) (ha : a < 256) (hb : b < 256) :
    a ||| (b <<< 8) ||| (c <<< 16) = a + b * 256 + c * 65536 := by
  have e8 : (2 : Nat) ^ 8 = 256 := by norm_num
  have e16 : (2 : Nat) ^ 16 = 65536 := by norm_num
  have key : ∀ (i x y : Nat), y < 2 ^ i → y ||| (x <<< i) = 2 ^ i * x + y := by
    intro i x y hy
    rw [Nat.lor_comm, Nat.shiftLeft_eq, Nat.mul_comm x (2 ^ i),
      ← Nat.mul_add_lt_is_or hy x]
  have h1 : a ||| (b <<< 8) = 2 ^ 8 * b + a := key 8 b a (by rw [e8]; exact ha)
  have hlow : 2 ^ 8 * b + a < 2 ^ 16 := by rw [e8, e16]; omega
  rw [h1, key 16 c _ hlow, e8, e16]
  omega

/-- Decoding the three bytes the code stores with `& 0xFF` masks and shifts
recovers the value modulo `2^24`. -/
theorem lor24_of_bytes (n : Nat) :
    (n &&& 255) ||| (((n >>> 8) &&& 255) <<< 8) ||| (((n >>> 16) &&& 255) <<< 16)
      = n % 16777216 := by
  have h255 : (255 : Nat) = 2 ^ 8 - 1 := by norm_num
  have e1 : n &&& 255 = n % 256 := by
    rw [h255, Nat.and_pow_two_sub_one_eq_mod]
  have e2 : (n >>> 8) &&& 255 = n / 256 % 256 := by
    rw [h255, Nat.and_pow_two_sub_one_eq_mod, Nat.shiftRight_eq_div_pow]
  have e3 : (n >>> 16) &&& 255 = n / 65536 % 256 := by
    rw [h255, Nat.and_pow_two_sub_one_eq_mod, Nat.shiftRight_eq_div_pow]
  rw [e1, e2, e3, lor_bytes_add _ _ _ (Nat.mod_lt _ (by norm_num)) (Nat.mod_lt _ (by norm_num))]
  omega

/-- Or with a multiple of `65536` keeps the low 16 bits; on a value below
`65536` it is plain addition. -/
theorem lor_prefix_split (p base : Nat) (hp : p % 65536 = 0) (hb : base ≤ 65535) :
    base ||| p = p + base ∧ (base ||| p) % 65536 = base := by
  have hk : p = 65536 * (p / 65536) := by omega
  have hlt : base < 2 ^ 16 := by norm_num; omega
  have h1 : base ||| p = p + base := by
    rw [Nat.lor_comm, hk]
    have h2 : (65536 : Nat) * (p / 65536) = 2 ^ 16 * (p / 65536) := by norm_num
    rw [h2, ← Nat.mul_add_lt_is_or hlt]
  refine ⟨h1, ?_⟩
  rw [h1]
  omega

set_option maxHeartbeats 1000000 in
/-- Values the resolution table can return: every prefix is a multiple of
`65536` and at most `0x000F0000`. -/
theorem prefixOf_facts (k : Bytes) (p : Nat) (h : prefixOf k = some p) :
    p % 65536 = 0 ∧ p ≤ 983040 := by
  unfold prefixOf at h
  split_ifs at h <;>
    first
      | exact Option.noConfusion h
      | (injection h with h; omega)

/-! ## C9 — 24-bit payload length field -/

/-- Declared payload length of an assembled chunk is the payload's length
reduced modulo `2^24`, whatever that length is. -/
theorem declaredLen24_assemble (imgType : Nat) (payload : Bytes) (w h : Nat) :
    declaredLen24 (bmp2rgbAssemble imgType payload w h)
      = payload.length % 16777216 := by
  have hmain := lor24_of_bytes payload.length
  unfold bmp2rgbAssemble mkChunkHeader declaredLen24
  simp only [List.cons_append, List.getD_cons_succ, List.getD_cons_zero]
  exact hmain

/-- C9 counterexample: `bmp_2_rgb` performs no 16 MiB check.  For a payload
of exactly `2^24` bytes the blob is still assembled, and the 24-bit length
field of its header holds 0, a masked value of the real length. -/
theorem c9_counterexample :
    bmp2rgbAssemble 73 (List.replicate 16777216 0) 1 1
      = mkChunkHeader 73 16777216 1 1 ++ List.replicate 16777216 0 ∧
    declaredLen24 (bmp2rgbAssemble 73 (List.replicate 16777216 0) 1 1) = 0 ∧
    (List.replicate 16777216 0).length = 16777216 := by
  refine ⟨?_, ?_, List.length_replicate _ _⟩
  · unfold bmp2rgbAssemble
    rw [List.length_replicate]
  · rw [declaredLen24_assemble, List.length_replicate]

/-- C9 amended: the pack operation does not check the 16 MiB chunk limit;
for every transcoded payload, `bmp_2_rgb` assembles the chunk and stores
the payload length reduced modulo `2^24` in the header's 24-bit field (so
an oversized payload gets a silently truncated length, not an explicit
failure). -/
theorem c9_amended_no_length_check (imgType : Nat) (payload : Bytes) (w h : Nat) :
    bmp2rgbAssemble imgType payload w h
      = mkChunkHeader imgType payload.length h w ++ payload ∧
    declaredLen24 (bmp2rgbAssemble imgType payload w h)
      = payload.length % 16777216 :=
  ⟨rfl, declaredLen24_assemble imgType payload w h⟩

/-! ## C8 — drawType 55 text slot -/

/-- C8: for every layer with `drawType == 55`, the `imgArr` element at
index 2 is serialized as exactly 30 bytes — the UTF-8 bytes of the string,
null-padded (or truncated) to 30 — never as an offset/length pair; in
particular `"HELLO"` emits its 5 bytes followed by 25 zero bytes. -/
theorem c8_drawtype55_text_slot :
    (∀ (zs : Nat) (objs : List (Bytes × Nat × Nat)) (dty : Int) (s : Bytes),
        serializeElem zs objs 55 dty 2 (.str s)
          = some (s.take 30 ++ List.replicate (30 - s.length) 0)) ∧
    serializeElem 0 [] 55 0 2 (.str [72, 69, 76, 76, 79])
      = some ([72, 69, 76, 76, 79] ++ List.replicate 25 0) := by
  constructor
  · intro zs objs dty s
    norm_num [serializeElem, serializeElem.pack30]
  · decide

/-! ## C5 — target-format selection -/

/-- Modelled from the claim's ordered selection table (first match on
(stem suffix, bits-per-pixel) wins): `8888` stems demand 32 bpp for
img_type 71 and abort otherwise; `1555` stems with 32 bpp give 74; a `565`
stem or 16/24 bpp gives 73; any remaining 32 bpp input gives 72; every
remaining combination aborts. -/
def selectImgTypeClaim (stem : Bytes) (bppBits : Nat) : Option Nat :=
  if endsWithB [56, 56, 56, 56] stem then
    if bppBits = 32 then some 71 else none
  else if endsWithB [49, 53, 53, 53] stem ∧ bppBits = 32 then some 74
  else if endsWithB [53, 54, 53] stem ∨ bppBits = 16 ∨ bppBits = 24 then some 73
  else if bppBits = 32 then some 72
  else none

/-- C5: on the BMP bit depths the transcoder accepts (16, 24, 32), the
source's format selection agrees exactly with the claim's first-match
table, including which (suffix, bpp) mismatches abort the file. -/
theorem c5_format_selection (stem : Bytes) (bppBits : Nat)
    (h : bppBits = 16 ∨ bppBits = 24 ∨ bppBits = 32) :
    selectImgType stem bppBits = selectImgTypeClaim stem bppBits := by
  rcases h with rfl | rfl | rfl <;>
    cases h8 : endsWithB [56, 56, 56, 56] stem <;>
    cases h1 : endsWithB [49, 53, 53, 53] stem <;>
    cases h5 : endsWithB [53, 54, 53] stem <;>
    simp [selectImgType, selectImgTypeClaim, selectImgType.suffix8888,
      selectImgType.suffix1555, selectImgType.suffix565, h8, h1, h5]

/-- C5 witness: a 32-bit BMP whose stem ends in `8888` maps to
img_type 71 under both the source selection and the claim table. -/
theorem c5_format_selection_witness :
    ((16 : Nat) = 16 ∨ (16 : Nat) = 24 ∨ (16 : Nat) = 32) ∧
    selectImgType [120, 56, 56, 56, 56] 16
      = selectImgTypeClaim [120, 56, 56, 56, 56] 16 ∧
    selectImgType [120, 56, 56, 56, 56] 16 = none ∧
    selectImgType [120, 56, 56, 56, 56] 32 = some 71 :=
  ⟨Or.inl rfl,
   c5_format_selection [120, 56, 56, 56, 56] 16 (Or.inl rfl),
   by decide, by decide⟩

/-! ## C4 — RGB565 row transcoding -/

/-- Dropping `2*x` bytes from a run of 2-byte pixel emissions lands exactly
at pixel `x`'s pair. -/
theorem pixRun_drop (f : Nat → Bytes) (hf : ∀ y, (f y).length = 2) :
    ∀ (x n s : Nat), x < n →
      (pixRun f s n).drop (2 * x) = f (s + x) ++ pixRun f (s + x + 1) (n - x - 1) := by
  intro x
  induction x with
  | zero =>
    intro n s hn
    obtain ⟨m, rfl⟩ : ∃ m, n = m + 1 := ⟨n - 1, by omega⟩
    simp [pixRun]
  | succ x ih =>
    intro n s hn
    obtain ⟨m, rfl⟩ : ∃ m, n = m + 1 := ⟨n - 1, by omega⟩
    obtain ⟨a, b, hab⟩ := List.length_eq_two.mp (hf s)
    have hstep : (pixRun f s (m + 1)).drop (2 * (x + 1))
        = (pixRun f (s + 1) m).drop (2 * x) := by
      show (f s ++ pixRun f (s + 1) m).drop (2 * (x + 1)) = _
      rw [hab, show 2 * (x + 1) = 2 * x + 1 + 1 by omega]
      rfl
    rw [hstep, ih m (s + 1) (by omega)]
    have e1 : s + 1 + x = s + (x + 1) := by omega
    have e3 : m - x - 1 = m + 1 - (x + 1) - 1 := by omega
    rw [e1, e3]

/-- The RGB565 value of a pixel always fits in 16 bits, whatever the input
bytes. -/
theorem rgb565_lt (r g b : Nat) : rgb565 r g b < 65536 := by
  have h1 : (r &&& 248) <<< 8 < 65536 := by
    have := @Nat.and_le_right r 248
    rw [Nat.shiftLeft_eq]
    norm_num
    omega
  have h2 : (g &&& 252) <<< 3 < 65536 := by
    have := @Nat.and_le_right g 252
    rw [Nat.shiftLeft_eq]
    norm_num
    omega
  have h3 : (b &&& 248) >>> 3 < 65536 := by
    have := @Nat.and_le_right b 248
    rw [Nat.shiftRight_eq_div_pow]
    norm_num
    omega
  have h16 : (65536 : Nat) = 2 ^ 16 := by norm_num
  unfold rgb565
  rw [h16] at h1 h2 h3 ⊢
  exact Nat.or_lt_two_pow (Nat.or_lt_two_pow h1 h2) h3

/-- C4: in the RGB565 arm of `pack_row`, every pixel of a 24-bit row is
emitted as the little-endian u16 of
`((R & 0xF8) << 8) | ((G & 0xFC) << 3) | ((B & 0xF8) >> 3)` with R, G, B
read from the row's BGR byte order (B at `3x`, G at `3x+1`, R at `3x+2`),
and a 16-bit row passes its first `width*2` bytes through unchanged. -/
theorem c4_rgb565_pixels :
    (∀ (w x : Nat) (row : Bytes), x < w →
      ((packRow565 3 w row).drop (2 * x)).take 2
          = le16 (((row.getD (x * 3 + 2) 0 &&& 0xF8) <<< 8) |||
                  ((row.getD (x * 3 + 1) 0 &&& 0xFC) <<< 3) |||
                  ((row.getD (x * 3) 0 &&& 0xF8) >>> 3)) ∧
      (((packRow565 3 w row).drop (2 * x)).take 2).getD 0 0
          + 256 * (((packRow565 3 w row).drop (2 * x)).take 2).getD 1 0
        = rgb565 (row.getD (x * 3 + 2) 0) (row.getD (x * 3 + 1) 0)
            (row.getD (x * 3) 0)) ∧
    (∀ (w : Nat) (row : Bytes), packRow565 2 w row = row.take (w * 2)) := by
  constructor
  · intro w x row hx
    have hlen : ∀ y, (pack565Pixel row y).length = 2 := by
      intro y
      simp [pack565Pixel, le16]
    have hdrop := pixRun_drop (pack565Pixel row) hlen x w 0 hx
    have hrow : packRow565 3 w row = pixRun (pack565Pixel row) 0 w := by
      simp [packRow565]
    have htake : ((packRow565 3 w row).drop (2 * x)).take 2 = pack565Pixel row x := by
      rw [hrow, hdrop, Nat.zero_add, List.take_left' (hlen x)]
    constructor
    · rw [htake]
      rfl
    · rw [htake]
      have hv := rgb565_lt (row.getD (x * 3 + 2) 0) (row.getD (x * 3 + 1) 0)
        (row.getD (x * 3) 0)
      unfold pack565Pixel le16
      simp only [List.getD_cons_succ, List.getD_cons_zero]
      rw [Nat.shiftRight_eq_div_pow]
      set v := rgb565 (row.getD (x * 3 + 2) 0) (row.getD (x * 3 + 1) 0)
        (row.getD (x * 3) 0) with hvdef
      norm_num
      omega
  · intro w row
    simp [packRow565]

/-- C4 witness: pixel 1 of a two-pixel BGR row — a pure-red pixel
`(B,G,R) = (0,0,255)` — is emitted as the little-endian pair `[0, 248]`,
decoding to `0xF800`. -/
theorem c4_rgb565_pixels_witness :
    (1 : Nat) < 2 ∧
    ((packRow565 3 2 [255, 255, 255, 0, 0, 255]).drop 2).take 2
      = le16 ((((255 : Nat) &&& 0xF8) <<< 8) ||| (((0 : Nat) &&& 0xFC) <<< 3) |||
          (((0 : Nat) &&& 0xF8) >>> 3)) ∧
    ((packRow565 3 2 [255, 255, 255, 0, 0, 255]).drop 2).take 2 = [0, 248] :=
  ⟨by omega,
   by
    have h := (c4_rgb565_pixels.1 2 1 [255, 255, 255, 0, 0, 255] (by omega)).1
    simpa using h,
   by decide⟩

/-! ## C6 — chunk compressor contract -/

/-- C6: a chunk with header byte 1 already equal to 1 is skipped — no
compressed output is produced and the stored chunk is left unchanged — and
otherwise the output is the 16-byte header with byte 1 set to 1 followed by
the LZ4 block compression (high-compression level 12, original size not
embedded, the opaque `lz4`) of the payload: a declared payload length of
zero, or one exceeding the available payload, is first repaired to the
actual payload length and written back into the header's 24-bit field,
while an in-range declared length is kept — the uncompressed-length field
of the emitted header always decodes to the length of the bytes handed to
`lz4`. -/
theorem c6_compressor_contract (lz4 : Bytes → Bytes) (blob : Bytes)
    (h16 : 16 ≤ blob.length) :
    (blob.getD 1 0 = 1 → compressRGB lz4 blob = none) ∧
    (blob.getD 1 0 ≠ 1 →
      (declaredLen24 blob = 0 ∨ blob.length - 16 < declaredLen24 blob →
        compressRGB lz4 blob
          = some ((setLen24 (blob.take 16) (blob.length - 16)).set 1 1
              ++ lz4 (blob.drop 16))) ∧
      (declaredLen24 blob ≠ 0 → declaredLen24 blob ≤ blob.length - 16 →
        compressRGB lz4 blob
          = some (((blob.take 16).set 1 1)
              ++ lz4 ((blob.drop 16).take (declaredLen24 blob))) ∧
        declaredLen24 (((blob.take 16).set 1 1)
              ++ lz4 ((blob.drop 16).take (declaredLen24 blob)))
          = declaredLen24 blob)) := by
  have hnotlt : ¬(blob.length < 16) := by omega
  have hplen : (blob.drop 16).length = blob.length - 16 := List.length_drop _ _
  constructor
  · intro h1
    unfold compressRGB
    rw [if_neg hnotlt, if_pos h1]
  · intro h1
    constructor
    · intro hrep
      unfold compressRGB
      rw [if_neg hnotlt, if_neg h1]
      simp only [hplen]
      rw [if_pos hrep, if_pos hrep,
        List.take_of_length_le (by omega : (blob.drop 16).length ≤ blob.length - 16)]
    · intro hne hle
      unfold compressRGB
      rw [if_neg hnotlt, if_neg h1]
      simp only [hplen]
      have hcond : ¬(declaredLen24 blob = 0 ∨ blob.length - 16 < declaredLen24 blob) := by
        omega
      rw [if_neg hcond, if_neg hcond]
      refine ⟨rfl, ?_⟩
      set out := ((blob.take 16).set 1 1) ++ lz4 ((blob.drop 16).take (declaredLen24 blob))
        with hout
      have hget : ∀ j, 2 ≤ j → j ≤ 4 → out.getD j 0 = blob.getD j 0 := by
        intro j hj2 hj4
        have hj : j < ((blob.take 16).set 1 1).length := by
          rw [List.length_set, List.length_take]
          omega
        rw [hout, List.getD_eq_getElem?_getD, List.getElem?_append_left hj,
          List.getElem?_set_ne (by omega), List.getElem?_take_of_lt (by omega),
          ← List.getD_eq_getElem?_getD]
      show declaredLen24 out = declaredLen24 blob
      unfold declaredLen24
      rw [hget 2 (by omega) (by omega), hget 3 (by omega) (by omega),
        hget 4 (by omega) (by omega)]

/-- C6 witness: a 17-byte raw chunk with a zero declared length is repaired
to declared length 1, its compressed flag is set, and its single payload
byte is handed to the (here, identity) compressor. -/
theorem c6_compressor_contract_witness :
    16 ≤ ([73, 0, 0, 0, 0, 0, 0, 0, 0, 0, 0, 0, 0, 0, 0, 0, 7] : Bytes).length ∧
    ([73, 0, 0, 0, 0, 0, 0, 0, 0, 0, 0, 0, 0, 0, 0, 0, 7] : Bytes).getD 1 0 ≠ 1 ∧
    declaredLen24 [73, 0, 0, 0, 0, 0, 0, 0, 0, 0, 0, 0, 0, 0, 0, 0, 7] = 0 ∧
    compressRGB (fun x => x) [73, 0, 0, 0, 0, 0, 0, 0, 0, 0, 0, 0, 0, 0, 0, 0, 7]
      = some [73, 1, 1, 0, 0, 0, 0, 0, 0, 0, 0, 0, 0, 0, 0, 0, 7] := by
  refine ⟨by decide, by decide, by decide, ?_⟩
  have h := ((c6_compressor_contract (fun x => x)
      [73, 0, 0, 0, 0, 0, 0, 0, 0, 0, 0, 0, 0, 0, 0, 0, 7] (by decide)).2
    (by decide)).1 (Or.inl (by decide))
  rw [h]
  decide

/-! ## C10 — in-range short declared length is not repaired -/

/-- C10: when the declared 24-bit payload length is strictly positive and
strictly smaller than the actual payload, the compressor keeps the header's
length field as declared (repairing nothing beyond setting the compressed
flag), hands only the first `declared` payload bytes to LZ4, and silently
drops the trailing bytes: the output coincides with what the chunk
truncated to `16 + declared` bytes would produce. -/
theorem c10_short_declared_len (lz4 : Bytes → Bytes) (blob : Bytes)
    (h16 : 16 ≤ blob.length) (h1 : blob.getD 1 0 ≠ 1)
    (h0 : 0 < declaredLen24 blob)
    (hlt : declaredLen24 blob < blob.length - 16) :
    compressRGB lz4 blob
      = some (((blob.take 16).set 1 1)
          ++ lz4 ((blob.drop 16).take (declaredLen24 blob))) ∧
    compressRGB lz4 blob = compressRGB lz4 (blob.take (16 + declaredLen24 blob)) := by
  have hplen : (blob.drop 16).length = blob.length - 16 := List.length_drop _ _
  have hmain : compressRGB lz4 blob
      = some (((blob.take 16).set 1 1)
          ++ lz4 ((blob.drop 16).take (declaredLen24 blob))) := by
    unfold compressRGB
    rw [if_neg (by omega : ¬(blob.length < 16)), if_neg h1]
    simp only [hplen]
    have hcond : ¬(declaredLen24 blob = 0 ∨ blob.length - 16 < declaredLen24 blob) := by
      omega
    rw [if_neg hcond, if_neg hcond]
  refine ⟨hmain, ?_⟩
  set t := blob.take (16 + declaredLen24 blob) with ht
  have htlen : t.length = 16 + declaredLen24 blob := by
    rw [ht, List.length_take]
    omega
  have hgetT : ∀ j, j < 16 → t.getD j 0 = blob.getD j 0 := by
    intro j hj
    rw [ht, List.getD_eq_getElem?_getD, List.getElem?_take_of_lt (by omega),
      ← List.getD_eq_getElem?_getD]
  have hdecl : declaredLen24 t = declaredLen24 blob := by
    unfold declaredLen24
    rw [hgetT 2 (by omega), hgetT 3 (by omega), hgetT 4 (by omega)]
  have hdropT : t.drop 16 = (blob.drop 16).take (declaredLen24 blob) := by
    rw [ht, List.drop_take]
    norm_num
  have hplT : (t.drop 16).length = declaredLen24 blob := by
    rw [hdropT, List.length_take]
    omega
  have hrhs : compressRGB lz4 t
      = some (((t.take 16).set 1 1) ++ lz4 ((t.drop 16).take (declaredLen24 blob))) := by
    unfold compressRGB
    rw [if_neg (by omega : ¬(t.length < 16)),
      if_neg (by rw [hgetT 1 (by omega)]; exact h1)]
    simp only [hdecl, hplT]
    have hcondT : ¬(declaredLen24 blob = 0 ∨ declaredLen24 blob < declaredLen24 blob) := by
      omega
    rw [if_neg hcondT, if_neg hcondT]
  rw [hmain, hrhs, hdropT]
  have htake16 : t.take 16 = blob.take 16 := by
    rw [ht, List.take_take]
    congr 1
    omega
  have htt : ((blob.drop 16).take (declaredLen24 blob)).take (declaredLen24 blob)
      = (blob.drop 16).take (declaredLen24 blob) := by
    rw [List.take_take]
    congr 1
    omega
  rw [htake16, htt]

/-- C10 witness: an 18-byte chunk declaring payload length 1 over a 2-byte
payload compresses only the first payload byte — the trailing byte is
dropped — and the result equals that of the 17-byte truncated chunk. -/
theorem c10_short_declared_len_witness :
    16 ≤ ([73, 0, 1, 0, 0, 0, 0, 0, 0, 0, 0, 0, 0, 0, 0, 0, 9, 8] : Bytes).length ∧
    ([73, 0, 1, 0, 0, 0, 0, 0, 0, 0, 0, 0, 0, 0, 0, 0, 9, 8] : Bytes).getD 1 0 ≠ 1 ∧
    0 < declaredLen24 [73, 0, 1, 0, 0, 0, 0, 0, 0, 0, 0, 0, 0, 0, 0, 0, 9, 8] ∧
    declaredLen24 [73, 0, 1, 0, 0, 0, 0, 0, 0, 0, 0, 0, 0, 0, 0, 0, 9, 8]
      < ([73, 0, 1, 0, 0, 0, 0, 0, 0, 0, 0, 0, 0, 0, 0, 0, 9, 8] : Bytes).length - 16 ∧
    compressRGB (fun x => x) [73, 0, 1, 0, 0, 0, 0, 0, 0, 0, 0, 0, 0, 0, 0, 0, 9, 8]
      = some [73, 1, 1, 0, 0, 0, 0, 0, 0, 0, 0, 0, 0, 0, 0, 0, 9] ∧
    compressRGB (fun x => x) [73, 0, 1, 0, 0, 0, 0, 0, 0, 0, 0, 0, 0, 0, 0, 0, 9, 8]
      = compressRGB (fun x => x) [73, 0, 1, 0, 0, 0, 0, 0, 0, 0, 0, 0, 0, 0, 0, 0, 9] := by
  refine ⟨by decide, by decide, by decide, by decide, ?_, ?_⟩
  · have h := (c10_short_declared_len (fun x => x)
      [73, 0, 1, 0, 0, 0, 0, 0, 0, 0, 0, 0, 0, 0, 0, 0, 9, 8]
      (by decide) (by decide) (by decide) (by decide)).1
    rw [h]
    decide
  · have h := (c10_short_declared_len (fun x => x)
      [73, 0, 1, 0, 0, 0, 0, 0, 0, 0, 0, 0, 0, 0, 0, 0, 9, 8]
      (by decide) (by decide) (by decide) (by decide)).2
    rw [h]
    decide

/-! ## C2 — image references and the two regions -/

/-- Packing a natural number below `2^31` as a big-endian i32 succeeds and
yields its unsigned big-endian bytes. -/
theorem packBEi_ofNat (n : Nat) (h : n < 2147483648) :
    packBEi (n : Int) = some (be32 n) := by
  unfold packBEi
  rw [if_neg (by omega)]
  have hmod : ((n : Int) % 4294967296) = (n : Int) := by
    apply Int.emod_eq_of_lt (by positivity)
    omega
  rw [hmod]
  norm_num

/-- C2: in every serialized layer record, an image reference to a filename
starting with `z_` is emitted as the big-endian i32 pair
`(z_region_start + local offset, chunk length)` with
`z_region_start = 32 + thumbnail_length + main_region_length`, while a
reference to any other filename is emitted as `(local offset, chunk
length)` — both for a plain string element (first conjunct) and for the
third component of a 3-tuple under `drawType ∈ {10, 15, 21}` (second
conjunct, preceded by the tuple's two i32s). -/
theorem c2_image_reference_offsets :
    (∀ (tlen mlen : Nat) (objs : List (Bytes × Nat × Nat)) (dt dty : Int)
        (idx : Nat) (s : Bytes) (o l : Nat),
      lookupObj objs s = some (o, l) →
      dt ≠ 10 → dt ≠ 15 → dt ≠ 21 →
      ¬(dt = 55 ∧ idx = 2) →
      ¬((dty = 64 ∨ dty = 65 ∨ dty = 66 ∨ dty = 67) ∧ (idx = 10 ∨ idx = 11)) →
      ¬(dt = 8 ∧ (idx = 0 ∨ idx = 1 ∨ idx = 2)) →
      32 + tlen + mlen + o < 2147483648 → l < 2147483648 →
      serializeElem (32 + tlen + mlen) objs dt dty idx (.str s)
        = some ((if startsZ s then be32 (32 + tlen + mlen + o) else be32 o)
            ++ be32 l)) ∧
    (∀ (tlen mlen : Nat) (objs : List (Bytes × Nat × Nat)) (dt dty : Int)
        (idx : Nat) (a b : Int) (s : Bytes) (o l : Nat),
      lookupObj objs s = some (o, l) →
      (dt = 10 ∨ dt = 15 ∨ dt = 21) →
      -2147483648 ≤ a → a < 2147483648 → -2147483648 ≤ b → b < 2147483648 →
      32 + tlen + mlen + o < 2147483648 → l < 2147483648 →
      serializeElem (32 + tlen + mlen) objs dt dty idx (.tup a b s)
        = some (be32 ((a % 4294967296).toNat) ++ be32 ((b % 4294967296).toNat)
            ++ ((if startsZ s then be32 (32 + tlen + mlen + o) else be32 o)
              ++ be32 l))) := by
  have hcast : ∀ z o : Nat, ((z : Int) + (o : Int)) = ((z + o : Nat) : Int) := by
    intro z o
    push_cast
    ring
  constructor
  · intro tlen mlen objs dt dty idx s o l hlook hd10 hd15 hd21 hd55 hdty hd8 ho hl
    unfold serializeElem
    rw [if_neg (by tauto : ¬(dt = 10 ∨ dt = 15 ∨ dt = 21)),
      if_neg hd55, if_neg hdty, if_neg hd8]
    simp only [hlook]
    cases hz : startsZ s with
    | true =>
      simp only [hz, if_pos, hcast, packBEi_ofNat _ ho, packBEi_ofNat l hl]
      rfl
    | false =>
      simp only [hz, Bool.false_eq_true, if_neg, packBEi_ofNat o (by omega : o < 2147483648),
        packBEi_ofNat l hl]
      rfl
  · intro tlen mlen objs dt dty idx a b s o l hlook hdt ha1 ha2 hb1 hb2 ho hl
    unfold serializeElem
    rw [if_pos hdt]
    have hpa : packBEi a = some (be32 ((a % 4294967296).toNat)) := by
      unfold packBEi
      rw [if_neg (by omega)]
    have hpb : packBEi b = some (be32 ((b % 4294967296).toNat)) := by
      unfold packBEi
      rw [if_neg (by omega)]
    simp only [hlook, hpa, hpb]
    cases hz : startsZ s with
    | true =>
      simp only [hz, if_pos, hcast, packBEi_ofNat _ ho, packBEi_ofNat l hl]
      show some _ = _
      simp [List.append_assoc]
    | false =>
      simp only [hz, Bool.false_eq_true, if_neg, packBEi_ofNat o (by omega : o < 2147483648),
        packBEi_ofNat l hl]
      show some _ = _
      simp [List.append_assoc]

/-- C2 witness: with an empty thumbnail and a 10-byte main region, the
file `z_a` stored at Z-local offset 4 with length 5 is referenced as
`(32 + 0 + 10 + 4, 5)`, and the file `p` at main offset 4 as `(4, 5)`. -/
theorem c2_image_reference_offsets_witness :
    lookupObj [([122, 95, 97], 4, 5)] [122, 95, 97] = some (4, 5) ∧
    serializeElem 42 [([122, 95, 97], 4, 5)] 0 0 0 (.str [122, 95, 97])
      = some (be32 46 ++ be32 5) ∧
    serializeElem 42 [([112], 4, 5)] 0 0 0 (.str [112])
      = some (be32 4 ++ be32 5) := by
  refine ⟨by decide, ?_, ?_⟩
  · have h := c2_image_reference_offsets.1 0 10 [([122, 95, 97], 4, 5)] 0 0 0
      [122, 95, 97] 4 5 (by decide) (by decide) (by decide) (by decide)
      (by decide) (by decide) (by decide) (by decide) (by decide)
    rw [show (42 : Nat) = 32 + 0 + 10 from rfl, h]
    decide
  · have h := c2_image_reference_offsets.1 0 10 [([112], 4, 5)] 0 0 0
      [112] 4 5 (by decide) (by decide) (by decide) (by decide)
      (by decide) (by decide) (by decide) (by decide) (by decide)
    rw [show (42 : Nat) = 32 + 0 + 10 from rfl, h]
    decide

/-! ## C3 — case sensitivity of filename matching during pack -/

/-- C3 counterexample: pack-time filename matching is case-sensitive, not
case-insensitive.  A source file named `Thumbnail.png` (capital T) is NOT
taken as the thumbnail — it lands in the main region with an `img_objs`
entry — and a serializer lookup of `PIC.BMP` against a chunk stored as
`pic.bmp` fails (aborting the pack) instead of succeeding regardless of
case. -/
theorem c3_counterexample :
    (packFiles none
        [([84, 104, 117, 109, 98, 110, 97, 105, 108, 46, 112, 110, 103], [1, 2, 3])]).thumbLen
      = 0 ∧
    (packFiles none
        [([84, 104, 117, 109, 98, 110, 97, 105, 108, 46, 112, 110, 103], [1, 2, 3])]).imgLen
      = 3 ∧
    lookupObj (packFiles none
        [([84, 104, 117, 109, 98, 110, 97, 105, 108, 46, 112, 110, 103], [1, 2, 3])]).objs
        [84, 104, 117, 109, 98, 110, 97, 105, 108, 46, 112, 110, 103]
      = some (0, 3) ∧
    (packFiles none
        [([116, 104, 117, 109, 98, 110, 97, 105, 108, 46, 112, 110, 103], [1, 2, 3])]).thumbLen
      = 3 ∧
    serializeElem 32 [([112, 105, 99, 46, 98, 109, 112], 0, 5)] 0 0 0
        (.str [80, 73, 67, 46, 66, 77, 80])
      = none := by
  decide

/-- ASCII lowercasing is idempotent. -/
theorem lowerBytes_idem (s : Bytes) : lowerBytes (lowerBytes s) = lowerBytes s := by
  unfold lowerBytes
  rw [List.map_map]
  apply List.map_congr_left
  intro c _
  show toLowerByte (toLowerByte c) = toLowerByte c
  unfold toLowerByte
  split_ifs <;> omega

/-- C3 amended: filename matching in `gen_clock_res` is case-sensitive —
a file becomes the thumbnail exactly when no override is given and its name
contains the exact (lowercase) substring `thumbnail`; the serializer's
lookup requires exact byte equality with the stored name and aborts
(`none`) whenever no exact entry exists, whatever the case on either side —
while the validator `check_clock` alone is case-insensitive, lowercasing
the config-side name before its membership test. -/
theorem c3_amended_case_sensitive :
    (∀ (acc : PackAcc) (name d : Bytes), containsSub thumbKey name = false →
        (packStep false acc name d).thumbData = acc.thumbData ∧
        (packStep false acc name d).thumbLen = acc.thumbLen) ∧
    (∀ (acc : PackAcc) (name d : Bytes), containsSub thumbKey name = true →
        (packStep false acc name d).thumbData = d ∧
        (packStep false acc name d).thumbLen = d.length) ∧
    (∀ (zs : Nat) (objs : List (Bytes × Nat × Nat)) (dt dty : Int) (idx : Nat)
        (s : Bytes), ¬(dt = 55 ∧ idx = 2) → lookupObj objs s = none →
        serializeElem zs objs dt dty idx (.str s) = none) ∧
    (∀ (files : List Bytes) (dt : Int) (idx : Nat) (s : Bytes),
        checkElemErrs files dt idx (.str s)
          = checkElemErrs files dt idx (.str (lowerBytes s))) := by
  refine ⟨?_, ?_, ?_, ?_⟩
  · intro acc name d hc
    unfold packStep
    rw [if_neg (by simp [hc])]
    split <;> exact ⟨rfl, rfl⟩
  · intro acc name d hc
    unfold packStep
    rw [if_pos ⟨rfl, hc⟩]
    exact ⟨rfl, rfl⟩
  · intro zs objs dt dty idx s h55 hnone
    unfold serializeElem
    split_ifs <;> simp_all
  · intro files dt idx s
    simp only [checkElemErrs, lowerBytes_idem]

/-- C3 amended witness: concrete instances of all four parts — `NAME.PNG`
(no lowercase `thumbnail`) leaves the thumbnail state alone; `thumbnail.png`
replaces it; a lookup miss aborts element serialization; the validator
treats `A` and `a` alike. -/
theorem c3_amended_case_sensitive_witness :
    (containsSub thumbKey [78, 46, 112, 110, 103] = false ∧
      (packStep false (packFiles none []) [78, 46, 112, 110, 103] [9]).thumbLen
        = (packFiles none []).thumbLen) ∧
    (containsSub thumbKey [116, 104, 117, 109, 98, 110, 97, 105, 108] = true ∧
      (packStep false (packFiles none []) [116, 104, 117, 109, 98, 110, 97, 105, 108] [9]).thumbLen
        = 1) ∧
    (lookupObj [] [97] = none ∧ serializeElem 0 [] 0 0 0 (.str [97]) = none) ∧
    checkElemErrs [[97]] 0 0 (.str [65]) = checkElemErrs [[97]] 0 0 (.str (lowerBytes [65])) :=
  ⟨⟨by decide, (c3_amended_case_sensitive.1 (packFiles none []) [78, 46, 112, 110, 103] [9]
      (by decide)).2⟩,
   ⟨by decide, (c3_amended_case_sensitive.2.1 (packFiles none [])
      [116, 104, 117, 109, 98, 110, 97, 105, 108] [9] (by decide)).2⟩,
   ⟨by decide, c3_amended_case_sensitive.2.2.1 0 [] 0 0 0 [97] (by decide) (by decide)⟩,
   c3_amended_case_sensitive.2.2.2 [[97]] 0 0 [65]⟩

/-! ## C7 — validator aggregates all mismatches -/

/-- The element loop's `err_count` accumulation equals the length of the
declaratively collected mismatch list. -/
theorem elemsCount_eq_length (files : List Bytes) (dt : Int) :
    ∀ (es : List ImgElem) (c i : Nat),
      checkCount.elemsCount files dt c i es
        = c + (checkElemsErrs files dt i es).length := by
  intro es
  induction es with
  | nil =>
    intro c i
    simp [checkCount.elemsCount, checkElemsErrs]
  | cons e es ih =>
    intro c i
    rw [show checkCount.elemsCount files dt c i (e :: es)
        = checkCount.elemsCount files dt (c + (checkElemErrs files dt i e).length)
            (i + 1) es from rfl,
      show checkElemsErrs files dt i (e :: es)
        = checkElemErrs files dt i e ++ checkElemsErrs files dt (i + 1) es from rfl,
      ih, List.length_append]
    omega

/-- The imperative `err_count` of `check_clock` equals the number of
mismatches in the declarative error list. -/
theorem checkCount_eq_length (files : List Bytes) (layers : List Layer) :
    checkCount files layers = (checkClockErrs files layers).length := by
  suffices h : ∀ (ls : List Layer) (c : Nat),
      List.foldl
        (fun c L =>
          checkCount.elemsCount files L.drawType
            (c + if (L.imgArr.length : Int) ≠ L.num then 1 else 0) 0 L.imgArr)
        c ls
      = c + (checkClockErrs files ls).length by
    have h0 := h layers 0
    simpa [checkCount] using h0
  intro ls
  induction ls with
  | nil =>
    intro c
    simp [checkClockErrs]
  | cons L ls ih =>
    intro c
    rw [List.foldl_cons, ih]
    simp only [checkClockErrs, List.flatMap_cons, List.length_append,
      elemsCount_eq_length, checkLayerErrs]
    split <;> simp <;> omega

/-- C7: the validator reports every mismatch rather than stopping at the
first: its error count equals the length of the full mismatch list; it
fails (returns `False`) iff at least one mismatch was found; the mismatch
list of concatenated layer lists is the concatenation of their mismatch
lists (no early stop); and an element yields a missing-file mismatch
exactly when the claim says — a string element not in the (lowercased)
file list except the `drawType == 55`, index 2 text slot, or the third
component of a 3-tuple not in the file list, integers never.  The source
returns only the boolean, not the error list — see the counterexample. -/
theorem c7_validator_reports_all :
    (∀ (files : List Bytes) (layers : List Layer),
        checkCount files layers = (checkClockErrs files layers).length) ∧
    (∀ (files : List Bytes) (layers : List Layer),
        (checkClockBool files layers = true ↔ checkClockErrs files layers = [])) ∧
    (∀ (files : List Bytes) (ls1 ls2 : List Layer),
        checkClockErrs files (ls1 ++ ls2)
          = checkClockErrs files ls1 ++ checkClockErrs files ls2) ∧
    (∀ (files : List Bytes) (dt : Int) (idx : Nat) (s : Bytes),
        checkElemErrs files dt idx (.str s) ≠ []
          ↔ (¬(dt = 55 ∧ idx = 2) ∧ lowerBytes s ∉ files)) ∧
    (∀ (files : List Bytes) (dt : Int) (idx : Nat) (a b : Int) (s : Bytes),
        (checkElemErrs files dt idx (.tup a b s) ≠ [] ↔ lowerBytes s ∉ files)) ∧
    (∀ (files : List Bytes) (dt : Int) (idx : Nat) (v : Int),
        checkElemErrs files dt idx (.int v) = []) := by
  refine ⟨checkCount_eq_length, ?_, ?_, ?_, ?_, ?_⟩
  · intro files layers
    unfold checkClockBool
    rw [checkCount_eq_length]
    simp [List.length_eq_zero]
  · intro files ls1 ls2
    unfold checkClockErrs
    exact List.flatMap_append _ _ _
  · intro files dt idx s
    simp only [checkElemErrs]
    split_ifs <;> simp_all
  · intro files dt idx a b s
    simp only [checkElemErrs]
    split_ifs <;> simp_all
  · intro files dt idx v
    rfl

/-- C7 counterexample: `check_clock` does not return the accumulated error
list to the caller — it returns only a boolean.  Two configurations with
different mismatch lists (one missing file vs. two) produce the identical
caller-visible result `False`, so no error list is recoverable from the
function's return value. -/
theorem c7_counterexample :
    checkClockBool []
        [{ name := [], drawType := 0, dataType := 0, interval := 0, area_num := [],
           alignType := 0, x := 0, y := 0, num := 1, imgArr := [.str [97]] }]
      = checkClockBool []
        [{ name := [], drawType := 0, dataType := 0, interval := 0, area_num := [],
           alignType := 0, x := 0, y := 0, num := 2, imgArr := [.str [97], .str [98]] }] ∧
    checkClockErrs []
        [{ name := [], drawType := 0, dataType := 0, interval := 0, area_num := [],
           alignType := 0, x := 0, y := 0, num := 1, imgArr := [.str [97]] }]
      ≠ checkClockErrs []
        [{ name := [], drawType := 0, dataType := 0, interval := 0, area_num := [],
           alignType := 0, x := 0, y := 0, num := 2, imgArr := [.str [97], .str [98]] }] ∧
    checkClockBool []
        [{ name := [], drawType := 0, dataType := 0, interval := 0, area_num := [],
           alignType := 0, x := 0, y := 0, num := 1, imgArr := [.str [97]] }]
      = false ∧
    checkClockErrs []
        [{ name := [], drawType := 0, dataType := 0, interval := 0, area_num := [],
           alignType := 0, x := 0, y := 0, num := 2, imgArr := [.str [97], .str [98]] }]
      = [.missing [97], .missing [98]] := by
  decide

/-! ## C1 — res-blob container layout -/

/-- Decoding the four big-endian bytes of a 32-bit value recovers it. -/
theorem be32_decode (n : Nat) (h : n < 4294967296) :
    n / 16777216 % 256 * 16777216 + n / 65536 % 256 * 65536
      + n / 256 % 256 * 256 + n % 256 = n := by
  omega

/-- Length of a big-endian u32 encoding. -/
theorem be32_length (n : Nat) : (be32 n).length = 4 := rfl

/-- `getD` past a left part of an append reads from the right part. -/
theorem getD_append_right (l1 l2 : Bytes) (j : Nat) (h : l1.length ≤ j) :
    (l1 ++ l2).getD j 0 = l2.getD (j - l1.length) 0 := by
  rw [List.getD_eq_getElem?_getD, List.getElem?_append_right h,
    ← List.getD_eq_getElem?_getD]

/-- Reading a big-endian field past a left part of an append reads it from
the right part at the shifted offset. -/
theorem readBE32_append_right (l1 l2 : Bytes) (i : Nat) (h : l1.length ≤ i) :
    readBE32 (l1 ++ l2) i = readBE32 l2 (i - l1.length) := by
  unfold readBE32
  rw [getD_append_right _ _ i h, getD_append_right _ _ (i + 1) (by omega),
    getD_append_right _ _ (i + 2) (by omega), getD_append_right _ _ (i + 3) (by omega),
    show i + 1 - l1.length = i - l1.length + 1 by omega,
    show i + 2 - l1.length = i - l1.length + 2 by omega,
    show i + 3 - l1.length = i - l1.length + 3 by omega]

/-- Reading at the start of an encoded u32 recovers the value. -/
theorem readBE32_be32 (n : Nat) (rest : Bytes) (h : n < 4294967296) :
    readBE32 (be32 n ++ rest) 0 = n := by
  unfold readBE32 be32
  simp only [List.cons_append, List.getD_cons_succ, List.getD_cons_zero]
  omega

/-- Skipping one encoded u32 field shifts the read offset by 4. -/
theorem readBE32_step (n : Nat) (rest : Bytes) (i : Nat) (h4 : 4 ≤ i) :
    readBE32 (be32 n ++ rest) i = readBE32 rest (i - 4) := by
  rw [readBE32_append_right (be32 n) rest i (by rw [be32_length]; exact h4), be32_length]

/-- Skipping the 8-byte magic shifts the read offset by 8. -/
theorem readBE32_magicStep (isIdle : Bool) (rest : Bytes) (i : Nat) (h8 : 8 ≤ i) :
    readBE32 ((if isIdle then idleMagic else stdMagic) ++ rest) i
      = readBE32 rest (i - 8) := by
  cases isIdle <;>
  · rw [readBE32_append_right _ rest i (by exact h8)]
    rfl

/-- The running region lengths maintained by the resource loop equal the
lengths of the accumulated region byte strings. -/
theorem packFiles_lengths (thumbOv : Option Bytes) (files : List (Bytes × Bytes)) :
    (packFiles thumbOv files).thumbLen = (packFiles thumbOv files).thumbData.length ∧
    (packFiles thumbOv files).imgLen = (packFiles thumbOv files).imgData.length ∧
    (packFiles thumbOv files).zLen = (packFiles thumbOv files).zData.length := by
  have hstep : ∀ (hv : Bool) (acc : PackAcc) (n d : Bytes),
      acc.thumbLen = acc.thumbData.length → acc.imgLen = acc.imgData.length →
      acc.zLen = acc.zData.length →
      ((packStep hv acc n d).thumbLen = (packStep hv acc n d).thumbData.length ∧
       (packStep hv acc n d).imgLen = (packStep hv acc n d).imgData.length ∧
       (packStep hv acc n d).zLen = (packStep hv acc n d).zData.length) := by
    intro hv acc n d h1 h2 h3
    unfold packStep
    split_ifs <;> refine ⟨?_, ?_, ?_⟩ <;> simp [List.length_append] <;> omega
  unfold packFiles
  suffices h : ∀ (fs : List (Bytes × Bytes)) (acc : PackAcc),
      acc.thumbLen = acc.thumbData.length → acc.imgLen = acc.imgData.length →
      acc.zLen = acc.zData.length →
      ((List.foldl (fun acc nd => packStep thumbOv.isSome acc nd.1 nd.2) acc fs).thumbLen
          = (List.foldl (fun acc nd => packStep thumbOv.isSome acc nd.1 nd.2) acc fs).thumbData.length ∧
       (List.foldl (fun acc nd => packStep thumbOv.isSome acc nd.1 nd.2) acc fs).imgLen
          = (List.foldl (fun acc nd => packStep thumbOv.isSome acc nd.1 nd.2) acc fs).imgData.length ∧
       (List.foldl (fun acc nd => packStep thumbOv.isSome acc nd.1 nd.2) acc fs).zLen
          = (List.foldl (fun acc nd => packStep thumbOv.isSome acc nd.1 nd.2) acc fs).zData.length) by
    exact h files _ rfl rfl rfl
  intro fs
  induction fs with
  | nil =>
    intro acc h1 h2 h3
    exact ⟨h1, h2, h3⟩
  | cons f fs ih =>
    intro acc h1 h2 h3
    rw [List.foldl_cons]
    obtain ⟨g1, g2, g3⟩ := hstep thumbOv.isSome acc f.1 f.2 h1 h2 h3
    exact ih _ g1 g2 g3

/-- C1: every successful pack writes the 8-byte magic (`Sb@*O2GG`, or
`II@*24dG` for idle), then big-endian u32 fields — `clock_id` equal to
`clock_id_base` OR'ed with the table's resolution prefix, `thumb_start =
32`, `thumb_length`, `main_start = 32 + thumb_length`, `main_length`,
`layer_block_start = main_start + main_length + z_length` — then the
thumbnail bytes, main region, Z region and layer block in that order; the
length fields equal the byte lengths of the written regions, and the low 16
bits of `clock_id` stay in `[50000, 65535]` for a `clock_id_base` in that
documented range. -/
theorem c1_res_blob_layout (isIdle : Bool) (base : Nat) (sizeKey : Bytes)
    (thumbOv : Option Bytes) (files : List (Bytes × Bytes)) (layers : List Layer)
    (pfx : Nat) (layerData : Bytes)
    (hpfx : prefixOf sizeKey = some pfx)
    (hbase1 : 50000 ≤ base) (hbase2 : base ≤ 65535)
    (hld : serializeLayers
        (32 + (packFiles thumbOv files).thumbLen + (packFiles thumbOv files).imgLen)
        (packFiles thumbOv files).objs layers = some layerData)
    (hfit : 32 + (packFiles thumbOv files).thumbLen + (packFiles thumbOv files).imgLen
        + (packFiles thumbOv files).zLen < 4294967296) :
    ∃ file, genClockRes isIdle base sizeKey thumbOv files layers = some file ∧
      file.take 8 = (if isIdle then idleMagic else stdMagic) ∧
      readBE32 file 8 = base ||| pfx ∧
      readBE32 file 12 = 32 ∧
      readBE32 file 16 = (packFiles thumbOv files).thumbLen ∧
      readBE32 file 20 = 32 + (packFiles thumbOv files).thumbLen ∧
      readBE32 file 24 = (packFiles thumbOv files).imgLen ∧
      readBE32 file 28 = 32 + (packFiles thumbOv files).thumbLen
          + (packFiles thumbOv files).imgLen + (packFiles thumbOv files).zLen ∧
      file.drop 32 = (packFiles thumbOv files).thumbData
          ++ (packFiles thumbOv files).imgData
          ++ (packFiles thumbOv files).zData ++ layerData ∧
      (50000 ≤ (base ||| pfx) % 65536 ∧ (base ||| pfx) % 65536 ≤ 65535) ∧
      ((packFiles thumbOv files).thumbLen = (packFiles thumbOv files).thumbData.length ∧
       (packFiles thumbOv files).imgLen = (packFiles thumbOv files).imgData.length ∧
       (packFiles thumbOv files).zLen = (packFiles thumbOv files).zData.length) := by
  obtain ⟨hpmod, hple⟩ := prefixOf_facts sizeKey pfx hpfx
  obtain ⟨hadd, hlow⟩ := lor_prefix_split pfx base hpmod hbase2
  have hlens := packFiles_lengths thumbOv files
  set acc := packFiles thumbOv files with hacc
  have hcid : base ||| pfx < 4294967296 := by omega
  have h1 : packU32 (base ||| pfx) = some (be32 (base ||| pfx)) := by
    unfold packU32
    rw [if_pos hcid]
  have h2 : packU32 32 = some (be32 32) := rfl
  have h3 : packU32 acc.thumbLen = some (be32 acc.thumbLen) := by
    unfold packU32
    rw [if_pos (by omega)]
  have h4 : packU32 (32 + acc.thumbLen) = some (be32 (32 + acc.thumbLen)) := by
    unfold packU32
    rw [if_pos (by omega)]
  have h5 : packU32 acc.imgLen = some (be32 acc.imgLen) := by
    unfold packU32
    rw [if_pos (by omega)]
  have h6 : packU32 (32 + acc.thumbLen + acc.imgLen + acc.zLen)
      = some (be32 (32 + acc.thumbLen + acc.imgLen + acc.zLen)) := by
    unfold packU32
    rw [if_pos hfit]
  refine ⟨(if isIdle then idleMagic else stdMagic) ++ be32 (base ||| pfx) ++ be32 32
      ++ be32 acc.thumbLen ++ be32 (32 + acc.thumbLen) ++ be32 acc.imgLen
      ++ be32 (32 + acc.thumbLen + acc.imgLen + acc.zLen)
      ++ acc.thumbData ++ acc.imgData ++ acc.zData ++ layerData,
    ?_, ?_, ?_, ?_, ?_, ?_, ?_, ?_, ?_, ⟨by omega, by omega⟩, hlens⟩
  · simp only [genClockRes]
    rw [← hacc]
    simp only [hpfx, hld, h1, h2, h3, h4, h5, h6]
  · simp only [List.append_assoc]
    cases isIdle <;> exact List.take_left' rfl
  · simp only [List.append_assoc]
    rw [readBE32_magicStep isIdle _ 8 (by omega), show (8 : Nat) - 8 = 0 from rfl,
      readBE32_be32 _ _ hcid]
  · simp only [List.append_assoc]
    rw [readBE32_magicStep isIdle _ 12 (by omega), show (12 : Nat) - 8 = 4 from rfl,
      readBE32_step _ _ 4 (by omega), show (4 : Nat) - 4 = 0 from rfl,
      readBE32_be32 32 _ (by norm_num)]
  · simp only [List.append_assoc]
    rw [readBE32_magicStep isIdle _ 16 (by omega), show (16 : Nat) - 8 = 8 from rfl,
      readBE32_step _ _ 8 (by omega), show (8 : Nat) - 4 = 4 from rfl,
      readBE32_step _ _ 4 (by omega), show (4 : Nat) - 4 = 0 from rfl,
      readBE32_be32 _ _ (by omega)]
  · simp only [List.append_assoc]
    rw [readBE32_magicStep isIdle _ 20 (by omega), show (20 : Nat) - 8 = 12 from rfl,
      readBE32_step _ _ 12 (by omega), show (12 : Nat) - 4 = 8 from rfl,
      readBE32_step _ _ 8 (by omega), show (8 : Nat) - 4 = 4 from rfl,
      readBE32_step _ _ 4 (by omega), show (4 : Nat) - 4 = 0 from rfl,
      readBE32_be32 _ _ (by omega)]
  · simp only [List.append_assoc]
    rw [readBE32_magicStep isIdle _ 24 (by omega), show (24 : Nat) - 8 = 16 from rfl,
      readBE32_step _ _ 16 (by omega), show (16 : Nat) - 4 = 12 from rfl,
      readBE32_step _ _ 12 (by omega), show (12 : Nat) - 4 = 8 from rfl,
      readBE32_step _ _ 8 (by omega), show (8 : Nat) - 4 = 4 from rfl,
      readBE32_step _ _ 4 (by omega), show (4 : Nat) - 4 = 0 from rfl,
      readBE32_be32 _ _ (by omega)]
  · simp only [List.append_assoc]
    rw [readBE32_magicStep isIdle _ 28 (by omega), show (28 : Nat) - 8 = 20 from rfl,
      readBE32_step _ _ 20 (by omega), show (20 : Nat) - 4 = 16 from rfl,
      readBE32_step _ _ 16 (by omega), show (16 : Nat) - 4 = 12 from rfl,
      readBE32_step _ _ 12 (by omega), show (12 : Nat) - 4 = 8 from rfl,
      readBE32_step _ _ 8 (by omega), show (8 : Nat) - 4 = 4 from rfl,
      readBE32_step _ _ 4 (by omega), show (4 : Nat) - 4 = 0 from rfl,
      readBE32_be32 _ _ hfit]
  · simp only [List.append_assoc]
    nth_rewrite 1 [show (32 : Nat)
        = (if isIdle then idleMagic else stdMagic).length + 24 by cases isIdle <;> rfl]
    rw [List.drop_append,
      show (24 : Nat) = (be32 (base ||| pfx)).length + 20 from rfl, List.drop_append,
      show (20 : Nat) = (be32 32).length + 16 from rfl, List.drop_append,
      show (16 : Nat) = (be32 acc.thumbLen).length + 12 from rfl, List.drop_append,
      show (12 : Nat) = (be32 (32 + acc.thumbLen)).length + 8 from rfl, List.drop_append,
      show (8 : Nat) = (be32 acc.imgLen).length + 4 from rfl, List.drop_append,
      show (4 : Nat)
        = (be32 (32 + acc.thumbLen + acc.imgLen + acc.zLen)).length + 0 from rfl,
      List.drop_append, List.drop_zero]

/-- C1 witness: the empty watchface at size `360_360` with clock id base
50000 packs to the 32-byte header file whose fields decode as claimed. -/
theorem c1_res_blob_layout_witness :
    prefixOf [51, 54, 48, 95, 51, 54, 48] = some 458752 ∧
    (50000 ≤ 50000 ∧ 50000 ≤ 65535) ∧
    serializeLayers
        (32 + (packFiles none []).thumbLen + (packFiles none []).imgLen)
        (packFiles none []).objs [] = some [] ∧
    32 + (packFiles none []).thumbLen + (packFiles none []).imgLen
        + (packFiles none []).zLen < 4294967296 ∧
    (∃ file, genClockRes false 50000 [51, 54, 48, 95, 51, 54, 48] none [] [] = some file ∧
      file.take 8 = (if false then idleMagic else stdMagic) ∧
      readBE32 file 8 = 50000 ||| 458752 ∧
      readBE32 file 12 = 32 ∧
      readBE32 file 16 = (packFiles none ([] : List (Bytes × Bytes))).thumbLen ∧
      readBE32 file 20 = 32 + (packFiles none ([] : List (Bytes × Bytes))).thumbLen ∧
      readBE32 file 24 = (packFiles none ([] : List (Bytes × Bytes))).imgLen ∧
      readBE32 file 28 = 32 + (packFiles none ([] : List (Bytes × Bytes))).thumbLen
          + (packFiles none ([] : List (Bytes × Bytes))).imgLen
          + (packFiles none ([] : List (Bytes × Bytes))).zLen ∧
      file.drop 32 = (packFiles none ([] : List (Bytes × Bytes))).thumbData
          ++ (packFiles none ([] : List (Bytes × Bytes))).imgData
          ++ (packFiles none ([] : List (Bytes × Bytes))).zData ++ [] ∧
      (50000 ≤ (50000 ||| 458752) % 65536 ∧ (50000 ||| 458752) % 65536 ≤ 65535) ∧
      ((packFiles none ([] : List (Bytes × Bytes))).thumbLen
          = (packFiles none ([] : List (Bytes × Bytes))).thumbData.length ∧
       (packFiles none ([] : List (Bytes × Bytes))).imgLen
          = (packFiles none ([] : List (Bytes × Bytes))).imgData.length ∧
       (packFiles none ([] : List (Bytes × Bytes))).zLen
          = (packFiles none ([] : List (Bytes × Bytes))).zData.length)) :=
  ⟨by decide, ⟨by decide, by decide⟩, by decide, by decide,
   c1_res_blob_layout false 50000 [51, 54, 48, 95, 51, 54, 48] none [] [] 458752 []
     (by decide) (by decide) (by decide) (by decide) (by decide)⟩

end GenClock
